import Mathlib

/-!
Verification development for the luapp tree-walking Lua interpreter.

The definitions below are a shallow embedding of the runtime value model
(src/types.h, src/types.cpp), the evaluator fragments relevant to the
checked properties (src/interpreter.cpp) and the static analyzer
(src/syntactic_analyzer.cpp).

Modelling conventions:
- C++ `double` is modelled as `Rat`. Every concrete double appearing in a
  theorem below (such as 1.5 or small integers) is exactly representable
  in binary64, and the operations used on doubles by the modelled code
  (comparison, equality, addition of small integers, fractional-part test)
  are exact on those inputs, so the rational model is faithful there.
- C++ `int` is modelled as `Int` (no theorem below approaches 2^31).
- Heap references (`Table*`, `Function*`, `Userdata*`) are modelled as
  natural-number references; the C++ pointer-identity comparisons become
  equality of references.
- Exceptions become `Except` results.
- `std::stod` (string-to-number parsing, an external library call) is left
  out of the model; every theorem below keeps string operands away from
  the coercion paths that would parse them.
-/

namespace Luapp

/-- Runtime error model: `Exceptions::ContextlessBadTypeException(expected, got)`
from src/exceptions.h, plus a marker for the unmodelled `std::stod` library
call reachable from the weak coercions on string operands. -/
inductive Err where
  | contextlessBadType (expected got : String)
  | runtimeError (msg : String)
  | stodCall
  deriving Repr, DecidableEq

/-- `Types::LuaValue` (src/types.h): tagged union
`std::variant<bool, int, double, std::string, Nil, Elipsis, Function*, Userdata*, Table*>`.
Doubles are modelled as rationals, heap pointers as `Nat` references; the
`Elipsis` variant carries its `std::vector<Value>` payload. -/
inductive LuaValue where
  | bool (b : Bool)
  | int (i : Int)
  | dbl (d : Rat)
  | str (s : String)
  | nil
  | elipsis (vs : List LuaValue)
  | func (r : Nat)
  | userdata (r : Nat)
  | table (r : Nat)
  deriving Repr

namespace LuaValue

/-- `Types::Value::type_as_string` (src/types.cpp): tag name used in error
messages. -/
def type_as_string : LuaValue → String
  | .nil => "nil"
  | .dbl _ => "double"
  | .int _ => "int"
  | .str _ => "string"
  | .func _ => "function"
  | .userdata _ => "userdata"
  | .table _ => "table"
  | .bool _ => "bool"
  | .elipsis _ => "unknown type"

/-- `Types::Value::as_bool_weak` (src/types.cpp): `false` and `nil` are falsy,
everything else truthy. -/
def as_bool_weak : LuaValue → Bool
  | .bool b => b
  | .nil => false
  | _ => true

/-- `Types::Value::as_double_weak` (src/types.cpp): double returns itself,
int is promoted, a string goes through `std::stod` (unmodelled), anything
else raises `ContextlessBadTypeException("weak double", tag)`. -/
def as_double_weak : LuaValue → Except Err Rat
  | .dbl d => .ok d
  | .int i => .ok (i : Rat)
  | .str _ => .error .stodCall
  | v => .error (.contextlessBadType "weak double" v.type_as_string)

/-- `Types::Value::as_int_weak(allow_double)` (src/types.cpp): int returns
itself; a double is accepted only when its fractional part is zero
(`std::modf(d, &intpart) == 0.0`), otherwise
`ContextlessBadTypeException("integer", "double")` is raised; with
`allow_double = false` every double raises; a string goes through
`std::stod` (unmodelled); other tags raise. A rational `d` has zero
fractional part exactly when its denominator is 1, and the C++
double-to-int conversion `return d;` is then exact, yielding the
numerator. -/
def as_int_weak (v : LuaValue) (allow_double : Bool := true) : Except Err Int :=
  match v with
  | .int i => .ok i
  | .dbl d =>
    if !allow_double then
      .error (.contextlessBadType "integer or integer-string" "double")
    else if d.den = 1 then
      .ok d.num
    else
      .error (.contextlessBadType "integer" "double")
  | .str _ => .error .stodCall
  | v => .error (.contextlessBadType "weak integer" v.type_as_string)

/-- Machine epsilon of binary64, `std::numeric_limits<double>::epsilon()`,
used by the double/double branch of `Types::Value::operator==`. -/
def machineEps : Rat := 1 / 2 ^ 52

/-- `Types::Value::operator==` (src/types.cpp, lines 337-379).
Same-tag: doubles compare with a tolerance proportional to epsilon, ints,
bools and strings structurally, `Nil` and `Elipsis` are always equal to
themselves, heap values by pointer identity (reference equality here).
Cross-tag: double-left/int-right goes through `as_double_weak` on the
right, int-left/double-right goes through `as_int_weak` on the right
(which RAISES on a double with nonzero fractional part), a bool on either
side compares against `as_bool_weak` of the other side, and every other
pair is unequal. The `this == &other` pointer shortcut has no counterpart
for a by-value model and cannot change the result on distinct objects. -/
def valueEq : LuaValue → LuaValue → Except Err Bool
  | .dbl d1, .dbl d2 =>
    let diff := |d1 - d2|
    let eps := machineEps * max 1 (max |d1| |d2|)
    .ok (diff ≤ eps)
  | .int i1, .int i2 => .ok (i1 == i2)
  | .bool b1, .bool b2 => .ok (b1 == b2)
  | .str s1, .str s2 => .ok (s1 == s2)
  | .nil, .nil => .ok true
  | .elipsis _, .elipsis _ => .ok true
  | .table r1, .table r2 => .ok (r1 == r2)
  | .userdata r1, .userdata r2 => .ok (r1 == r2)
  | .func r1, .func r2 => .ok (r1 == r2)
  | .dbl d, other =>
    match other.as_double_weak with
    | .ok d2 => .ok (decide (d = d2))
    | .error e => .error e
  | .int i, other =>
    match other.as_int_weak with
    | .ok i2 => .ok (i == i2)
    | .error e => .error e
  | .bool b, other => .ok (b == other.as_bool_weak)
  | other, .bool b => .ok (other.as_bool_weak == b)
  | _, _ => .ok false

end LuaValue

end Luapp

namespace Luapp

/-- Comparison operators of `Interpreter::visitOperatorComparison`
(src/interpreter.cpp). -/
inductive OperatorComparison where
  | lowerS | greaterS | lowerE | greaterE | diff | eq
  deriving Repr, DecidableEq

/-- The double-valued comparison function selected by the switch in
`Interpreter::visitExp` for `operatorComparison` (src/interpreter.cpp,
lines 449-476): every operator, including `==` and `~=`, is interpreted on
the two operands coerced to double. -/
def comparisonFn : OperatorComparison → Rat → Rat → Bool
  | .diff, x, y => !decide (x = y)
  | .eq, x, y => decide (x = y)
  | .greaterE, x, y => decide (x ≥ y)
  | .greaterS, x, y => decide (x > y)
  | .lowerE, x, y => decide (x ≤ y)
  | .lowerS, x, y => decide (x < y)

/-- The `operatorComparison` branch of `Interpreter::visitExp`
(src/interpreter.cpp, lines 439-478): both operands (already evaluated,
left first) are coerced with `as_double_weak` and the selected double
comparison is applied; the result is a bool Value. `Types::Value::operator==`
is never consulted here. -/
def eval_comparison (op : OperatorComparison) (l r : LuaValue) :
    Except Err LuaValue :=
  match l.as_double_weak with
  | .error e => .error e
  | .ok ld =>
    match r.as_double_weak with
    | .error e => .error e
    | .ok rd => .ok (.bool (comparisonFn op ld rd))

/-! ### Table model (src/types.h, src/types.cpp)

`Types::Table` holds one `std::map` per key tag (plus a two-slot vector for
bool keys). The maps are modelled as duplicate-free association lists with
`std::map::operator[]` insert-or-update semantics. -/

/-- `std::map::operator[] = value`: update the entry if the key is present,
append a fresh entry otherwise. -/
def mapSet {κ ν : Type} [DecidableEq κ] :
    List (κ × ν) → κ → ν → List (κ × ν)
  | [], k, v => [(k, v)]
  | (k0, v0) :: rest, k, v =>
    if k0 = k then (k0, v) :: rest else (k0, v0) :: mapSet rest k v

/-- `std::map::find`: the value stored under a key, when present. -/
def mapFind {κ ν : Type} [DecidableEq κ] :
    List (κ × ν) → κ → Option ν
  | [], _ => none
  | (k0, v0) :: rest, k => if k0 = k then some v0 else mapFind rest k

/-- `Types::Table` (src/types.h): seven per-key-tag stores. `_bool_fields`
is a vector of exactly two slots, both initialized to copies of `nil` by the
constructor; the other six are maps, empty initially. -/
structure Table where
  int_fields : List (Int × LuaValue) := []
  double_fields : List (Rat × LuaValue) := []
  bool_false_slot : LuaValue := .nil
  bool_true_slot : LuaValue := .nil
  string_fields : List (String × LuaValue) := []
  function_fields : List (Nat × LuaValue) := []
  table_fields : List (Nat × LuaValue) := []
  userdata_fields : List (Nat × LuaValue) := []

/-- `Types::Table::FieldSetter` (src/types.cpp, lines 164-194): dispatch on
the key tag and store the value in the matching sub-map, unconditionally —
there is no special case removing the entry when the stored value is `nil`.
The `Nil` and `Elipsis` overloads in src/types.h are empty bodies (silent
no-ops). -/
def fieldSet (t : Table) (key v : LuaValue) : Table :=
  match key with
  | .int i => { t with int_fields := mapSet t.int_fields i v }
  | .dbl d => { t with double_fields := mapSet t.double_fields d v }
  | .bool b =>
    if b then { t with bool_true_slot := v } else { t with bool_false_slot := v }
  | .str s => { t with string_fields := mapSet t.string_fields s v }
  | .func r => { t with function_fields := mapSet t.function_fields r v }
  | .table r => { t with table_fields := mapSet t.table_fields r v }
  | .userdata r => { t with userdata_fields := mapSet t.userdata_fields r v }
  | .nil => t
  | .elipsis _ => t

/-- `Types::Table::FieldGetter` with `set_nil = false`
(src/types.cpp, lines 199-287), as used by `Table::subscript` for a plain
read: a present entry returns its stored value (even when that value is
`nil`), a missing entry returns the canonical `nil` without creating a
slot; the two bool slots always exist; a `Nil` or `Elipsis` key throws
`std::runtime_error`. -/
def table_subscript (t : Table) (key : LuaValue) : Except Err LuaValue :=
  match key with
  | .int i => .ok ((mapFind t.int_fields i).getD .nil)
  | .dbl d => .ok ((mapFind t.double_fields d).getD .nil)
  | .bool b => .ok (if b then t.bool_true_slot else t.bool_false_slot)
  | .str s => .ok ((mapFind t.string_fields s).getD .nil)
  | .func r => .ok ((mapFind t.function_fields r).getD .nil)
  | .table r => .ok ((mapFind t.table_fields r).getD .nil)
  | .userdata r => .ok ((mapFind t.userdata_fields r).getD .nil)
  | .nil => .error (.runtimeError "No nil allowed in table")
  | .elipsis _ => .error (.runtimeError "No elipsis allowed in table")

/-- `Types::Table::FieldGetter` with `set_nil = true`: like a read, but a
missing entry is first created holding `nil` and a reference to the slot is
returned. This is the lookup the assignment path uses to obtain its
lvalue. -/
def table_create_on_miss (t : Table) (key : LuaValue) : Except Err Table :=
  match key with
  | .int i =>
    .ok (if (mapFind t.int_fields i).isSome then t
         else { t with int_fields := mapSet t.int_fields i .nil })
  | .dbl d =>
    .ok (if (mapFind t.double_fields d).isSome then t
         else { t with double_fields := mapSet t.double_fields d .nil })
  | .bool _ => .ok t
  | .str s =>
    .ok (if (mapFind t.string_fields s).isSome then t
         else { t with string_fields := mapSet t.string_fields s .nil })
  | .func r =>
    .ok (if (mapFind t.function_fields r).isSome then t
         else { t with function_fields := mapSet t.function_fields r .nil })
  | .table r =>
    .ok (if (mapFind t.table_fields r).isSome then t
         else { t with table_fields := mapSet t.table_fields r .nil })
  | .userdata r =>
    .ok (if (mapFind t.userdata_fields r).isSome then t
         else { t with userdata_fields := mapSet t.userdata_fields r .nil })
  | .nil => .error (.runtimeError "No nil allowed in table")
  | .elipsis _ => .error (.runtimeError "No elipsis allowed in table")

/-- The table-assignment statement `t[k] = v` as executed by
`Interpreter::visitVar_` in VARLIST context plus
`Interpreter::process_stat_var_list` (src/interpreter.cpp, lines 609-628
and 931-984): the left side resolves to a slot reference through the
create-on-miss getter, then the right-side value is written through that
reference (`vars[i]._lvalue()->value() = exprs[i].get().value()`).
No branch erases the entry when the assigned value is `nil`. -/
def table_assign (t : Table) (key v : LuaValue) : Except Err Table :=
  match table_create_on_miss t key with
  | .error e => .error e
  | .ok t1 => .ok (fieldSet t1 key v)

/-- `std::set<unsigned int>` insertion: keep the list strictly sorted and
duplicate-free. -/
def insertSorted (x : Int) : List Int → List Int
  | [] => [x]
  | y :: rest =>
    if x < y then x :: y :: rest
    else if x = y then y :: rest
    else y :: insertSorted x rest

/-- The key-collection phase of `Types::Table::border` (src/types.cpp,
lines 109-118): every key PRESENT in `_int_fields` — whatever value it
stores, including `nil` — that is strictly positive, gathered into a
sorted set. -/
def positiveIntKeys (t : Table) : List Int :=
  ((t.int_fields.map Prod.fst).filter (fun i => 0 < i)).foldr insertSorted []

/-- The scan phase of `Types::Table::border` (src/types.cpp, lines
119-134): walk the sorted key set; while the successor of the current key
is also present continue, otherwise return the current key; an empty set
yields 0. -/
def borderScan : List Int → Int
  | [] => 0
  | [k] => k
  | k :: k2 :: rest => if k = k2 - 1 then borderScan (k2 :: rest) else k

/-- `Types::Table::border` (src/types.cpp, lines 109-135). -/
def border (t : Table) : Int := borderScan (positiveIntKeys t)

/-! ### Short-circuit structure of `and` / `or` (src/interpreter.cpp)

A miniature expression language covering the operand shapes the claim
needs, together with an evaluator instrumented with the list of expression
nodes on which `Interpreter::visit` is invoked. Any side effect of a
subexpression (a function call, an allocation) happens inside its `visit`
call, so "the side effects of e occur" is observed here as "e appears in
the visit trace". -/

inductive SExp where
  | lit (v : LuaValue)
  | andE (l r : SExp)
  | orE (l r : SExp)
  deriving Repr

/-- The `operatorAnd` / `operatorOr` branches of `Interpreter::visitExp`
(src/interpreter.cpp, lines 479-503), instrumented with the visit trace.
In BOTH branches the code runs `visit(context->exp()[0])` and then
UNCONDITIONALLY `visit(context->exp()[1])` before inspecting the truth
value of the left operand; only the returned Value is selected by the
test. Literals evaluate to their value. -/
def evalS : SExp → LuaValue × List SExp
  | .lit v => (v, [.lit v])
  | .andE l r =>
    let lp := evalS l
    let left := lp.1.as_bool_weak
    let rp := evalS r
    (if left then rp.1 else lp.1, .andE l r :: (lp.2 ++ rp.2))
  | .orE l r =>
    let lp := evalS l
    let rp := evalS r
    let left := lp.1.as_bool_weak
    (if left then lp.1 else rp.1, .orE l r :: (lp.2 ++ rp.2))

/-! ### Parameter binding of a call (src/interpreter.cpp)

`Interpreter::call_function` (lines 1423-1476) builds the local store of
the callee body block. Note that for a variadic function the formal
parameter list produced by `Interpreter::visitParlist` ENDS WITH the
literal name `"..."` — for `function f(x, ...)` it is `["x", "..."]`. -/

/-- The argument-binding phase of `Interpreter::call_function`
(src/interpreter.cpp, lines 1435-1460). First loop: bind
`formal_parameters()[i] ↦ values[i]` for `i` below the minimum of the two
lengths (this also binds the formal literally named `"..."` to a plain
positional argument). Then: leftover formals are filled with `nil`;
otherwise, if arguments remain and the LAST formal is `"..."`, the binding
`"..."` is overwritten with an `Elipsis` holding exactly the arguments
from index `formal_parameters().size()` on. When the formal list is empty
and arguments remain, the source calls `back()` on an empty vector
(undefined behavior); no claim reaches that case and the model leaves the
environment unchanged there. -/
def bind_parameters (formals : List String) (values : List LuaValue) :
    List (String × LuaValue) :=
  let env0 := (formals.zip values).foldl (fun env fv => mapSet env fv.1 fv.2) []
  if values.length < formals.length then
    (formals.drop values.length).foldl (fun env f => mapSet env f .nil) env0
  else if formals.length < values.length then
    match formals.getLast? with
    | some f =>
      if f = "..." then
        mapSet env0 "..." (.elipsis (values.drop formals.length))
      else env0
    | none => env0
  else env0

/-! ### Numeric `for` (src/interpreter.cpp) -/

/-- The all-integer iteration of `Interpreter::process_for_loop`
(src/interpreter.cpp, lines 1195-1216): when counter and increment are
ints the loop runs
`for (; value->as<int>() <= limit.as_double_weak(); value += increment)`.
The comparison promotes the int counter to double; with an integer limit
this coincides with integer `≤`, and the advance
`counter.as<int>() + (int)increment.as_double_weak()` is exact integer
addition. The returned list is the sequence of values the loop variable
holds on entry to the body; the condition does not depend on the sign of
the step. Fuel bounds the unrolling (the source loop can run forever, for
instance with step 0). -/
def for_loop_values (i limit step : Int) : Nat → List Int
  | 0 => []
  | fuel + 1 =>
    if i ≤ limit then i :: for_loop_values (i + step) limit step fuel else []

/-! ### The `Goto` catch handler of `Interpreter::visitBlock`
(src/interpreter.cpp, lines 72-96) -/

/-- Statement shapes a block distinguishes when resuming after a caught
`Goto`. -/
inductive GStat where
  | label (name : String)
  | gotoStat (name : String)
  | plain
  deriving Repr, DecidableEq

/-- The forward scan of the catch handler: starting at index `j`, advance
while the current statement is not the label `lbl`; when the list is
exhausted the index has reached the end of the block. -/
def goto_scan (lbl : String) : List GStat → Nat → Nat
  | [], j => j
  | s :: rest, j =>
    match s with
    | .label n => if n = lbl then j else goto_scan lbl rest (j + 1)
    | _ => goto_scan lbl rest (j + 1)

/-- The statement index at which `Interpreter::visitBlock` resumes after
catching `Goto(lbl)` thrown while executing statement `i` of a block whose
label map associates `lbl` with this block (src/interpreter.cpp, lines
78-95): `++i`, then scan FORWARD for the label, then `++i` past it. When
the label only occurs at an index `≤ i` the scan runs off the end and the
result is `stats.length + 1`, so the loop over the block statements
terminates and control falls out of the block. -/
def goto_resume (stats : List GStat) (i : Nat) (lbl : String) : Nat :=
  goto_scan lbl (stats.drop (i + 1)) (i + 1) + 1

/-! ### Scopes, name lookup and `repeat … until` (src/interpreter.cpp)

Blocks are identified by number. `LocalsStore` models
`_local_values.back()` (the per-block local maps of the current frame) and
`VisMap` models the static analyzer artifact `_locals_per_block` (for each
block, the multimap from a visible local name to the block that declared
it). -/

abbrev BlockId := Nat

abbrev LocalsStore := List (BlockId × List (String × LuaValue))

abbrev VisMap := List (BlockId × List (String × BlockId))

/-- `Interpreter::lookup_name` (src/interpreter.cpp, lines 1325-1365):
walk the analyzer contexts `get_context_for_local(current_block(), name)`
and keep the LAST context that has a live binding for `name` in the
current frame; if none, consult the closure of the current function (when
a function call is in flight); if still none, the global store, yielding
nothing when the global does not exist. -/
def lookup_name (vis : VisMap) (locals : LocalsStore)
    (closure : Option (List (String × LuaValue)))
    (globals : List (String × LuaValue)) (cur : BlockId) (name : String) :
    Option LuaValue :=
  let contexts :=
    ((((mapFind vis cur).getD []).filter (fun p => p.1 = name)).map Prod.snd)
  let found :=
    contexts.filterMap (fun ctx => mapFind ((mapFind locals ctx).getD []) name)
  match found.getLast? with
  | some v => some v
  | none =>
    match closure with
    | some cl =>
      match mapFind cl name with
      | some v => some v
      | none => mapFind globals name
    | none => mapFind globals name

/-- The store update of `Interpreter::process_local_variables`
(src/interpreter.cpp, lines 1256-1265) for one name with one value:
`_local_values.back()[current_block()][name] = value`. -/
def declare_local (locals : LocalsStore) (cur : BlockId) (name : String)
    (v : LuaValue) : LocalsStore :=
  mapSet locals cur (mapSet ((mapFind locals cur).getD []) name v)

/-- `Interpreter::erase_block` (src/interpreter.cpp, lines 1401-1404):
drop the whole local map of a block from the current frame. -/
def erase_block (locals : LocalsStore) (blk : BlockId) : LocalsStore :=
  locals.filter (fun p => p.1 ≠ blk)

/-- Run a body consisting of `local name = value` declarations in block
`blk`, in order. -/
def run_local_decls (locals : LocalsStore) (blk : BlockId) :
    List (String × LuaValue) → LocalsStore
  | [] => locals
  | d :: rest => run_local_decls (declare_local locals blk d.1 d.2) blk rest

/-- The analyzer visibility map for the two-block program
`repeat <local declarations> until <name>`: block 0 is the chunk block
(declares nothing), block 1 is the repeat body; each body local is
recorded by `SyntacticAnalyzer::enterStat` as declared in block 1 and is
visible from block 1 only (`_locals_per_block` copies parent entries into
children, never child entries into parents). -/
def repeat_vis (decls : List (String × LuaValue)) : VisMap :=
  [(0, []), (1, decls.map (fun d => (d.1, 1)))]

/-- The frame contents while the repeat body (block 1) is still executing,
after its local declarations ran. -/
def repeat_body_locals (decls : List (String × LuaValue)) : LocalsStore :=
  run_local_decls [] 1 decls

/-- What the `until` condition reads for identifier `name`:
`Interpreter::process_repeat` (src/interpreter.cpp, lines 1005-1014)
evaluates the condition only after `visit(block)` has returned, and the
tail of `Interpreter::visitBlock` (lines 98-114) has by then already run
`erase_block(context)` and popped the body block, so the lookup executes
with current block 0 and the body locals erased; a failed lookup renders
as `nil` (`Interpreter::visitVar_`, non-VARLIST branch). -/
def repeat_condition_read (decls : List (String × LuaValue))
    (globals : List (String × LuaValue)) (name : String) : LuaValue :=
  (lookup_name (repeat_vis decls) (erase_block (repeat_body_locals decls) 1)
    none globals 0 name).getD .nil

/-- What the same identifier reads while the body is still executing
(current block 1, body locals live). -/
def repeat_body_read (decls : List (String × LuaValue)) (name : String) :
    LuaValue :=
  (lookup_name (repeat_vis decls) (repeat_body_locals decls)
    none [] 1 name).getD .nil

/-! ### Break legality in the static analyzer (src/syntactic_analyzer.cpp)

`SyntacticAnalyzer::enterStat` (lines 71-128) inserts the body block of a
`while` / `repeat` / numeric `for` / generic `for` into `_loop_blocks`
when it reaches the loop statement, and `exitBlock` (line 66) erases it
when the body block is exited; a `break` statement raises
`Exceptions::LonelyBreak` exactly when `_loop_blocks` is empty at that
point of the tree walk. `enterFuncbody` does NOT reset `_loop_blocks`, so
the walk of a function body nested inside a loop body still sees a
non-empty set. The walk is modelled as a recursion carrying the size of
`_loop_blocks`; statement bodies are blocks, loop conditions and
expression lists are not modelled (they hold no statements). -/

mutual

inductive BStat where
  | breakStat : BStat
  | whileStat : BBlock → BStat
  | repeatStat : BBlock → BStat
  | forNumStat : BBlock → BStat
  | forInStat : BBlock → BStat
  | doStat : BBlock → BStat
  | funcStat : BBlock → BStat
  | otherStat : BStat

inductive BBlock where
  | nil : BBlock
  | cons : BStat → BBlock → BBlock

end

mutual

/-- Walk of one statement by `SyntacticAnalyzer::enterStat`; `d` is the
number of loop body blocks currently open (the size of `_loop_blocks`).
Returns `false` when the walk raises `LonelyBreak`. -/
def checkStat : Nat → BStat → Bool
  | d, .breakStat => decide (0 < d)
  | d, .whileStat b => checkBlock (d + 1) b
  | d, .repeatStat b => checkBlock (d + 1) b
  | d, .forNumStat b => checkBlock (d + 1) b
  | d, .forInStat b => checkBlock (d + 1) b
  | d, .doStat b => checkBlock d b
  | d, .funcStat b => checkBlock d b
  | _, .otherStat => true

/-- Walk of a statement list (a block). -/
def checkBlock : Nat → BBlock → Bool
  | _, .nil => true
  | d, .cons s rest => checkStat d s && checkBlock d rest

end

mutual

/-- Declarative reading of the walker above (the amended rule): a lonely
break is a `break` with no loop statement extent open around it, where
`do` blocks AND function bodies pass the flag through unchanged. -/
def lonelyStat : Bool → BStat → Bool
  | inLoop, .breakStat => !inLoop
  | _, .whileStat b => lonelyBlock true b
  | _, .repeatStat b => lonelyBlock true b
  | _, .forNumStat b => lonelyBlock true b
  | _, .forInStat b => lonelyBlock true b
  | inLoop, .doStat b => lonelyBlock inLoop b
  | inLoop, .funcStat b => lonelyBlock inLoop b
  | _, .otherStat => false

def lonelyBlock : Bool → BBlock → Bool
  | _, .nil => false
  | inLoop, .cons s rest => lonelyStat inLoop s || lonelyBlock inLoop rest

end

mutual

/-- Modelled from the spec: the break-legality rule as the claim states it
— `break` is legal only within the body block of a `while`, `repeat`,
numeric `for`, or generic `for` OF THE SAME FUNCTION, so a function body
resets the in-loop flag. Present only to be compared with the walker
translated from the source. -/
def claimLonelyStat : Bool → BStat → Bool
  | inLoop, .breakStat => !inLoop
  | _, .whileStat b => claimLonelyBlock true b
  | _, .repeatStat b => claimLonelyBlock true b
  | _, .forNumStat b => claimLonelyBlock true b
  | _, .forInStat b => claimLonelyBlock true b
  | inLoop, .doStat b => claimLonelyBlock inLoop b
  | _, .funcStat b => claimLonelyBlock false b
  | _, .otherStat => false

/-- Modelled from the spec: block form of `claimLonelyStat`. -/
def claimLonelyBlock : Bool → BBlock → Bool
  | _, .nil => false
  | inLoop, .cons s rest => claimLonelyStat inLoop s || claimLonelyBlock inLoop rest

end

/-- Modelled from the spec: the property claimed of `Types::Table::border`
— it returns a positive `n` whose lookup is non-nil while the lookup of
`n+1` is nil, or 0 when the lookup of 1 is nil. Present only to be
compared with `border` as translated from the source. -/
def borderSpec (t : Table) : Prop :=
  (0 < border t ∧ table_subscript t (.int (border t)) ≠ .ok .nil ∧
    table_subscript t (.int (border t + 1)) = .ok .nil) ∨
  (border t = 0 ∧ table_subscript t (.int 1) = .ok .nil)

/-- The program `while … do local f = function() break end end`, walked by
the analyzer: a `break` inside a function body that is lexically nested
inside a loop body. -/
def demoBreakProgram : BBlock :=
  .cons (.whileStat (.cons (.funcStat (.cons .breakStat .nil)) .nil)) .nil

/-! ## General lemmas about the association-list maps -/

theorem mapFind_mapSet {κ ν : Type} [DecidableEq κ]
    (m : List (κ × ν)) (k : κ) (v : ν) : mapFind (mapSet m k v) k = some v := by
  induction m with
  | nil => simp [mapSet, mapFind]
  | cons p rest ih =>
    obtain ⟨k0, v0⟩ := p
    by_cases h : k0 = k
    · simp [mapSet, mapFind, h]
    · simp [mapSet, mapFind, h, ih]

end Luapp

namespace Luapp

/-! ## Claim theorems -/

/-- C10. Cross-tag equality between int and double in
`Types::Value::operator==`: with the double on the left the comparison is
numeric, but with the INT on the left the right operand goes through
`as_int_weak`, which raises `ContextlessBadTypeException` for a double
with nonzero fractional part — `Value(1) == Value(1.5)` raises instead of
returning false, contradicting the claim (and the comment "Equality
between ints and doubles is allowed" in the source). Evaluation of the
model at the failing input, plus the two orientations that do work. -/
theorem valueEq_int_double_raises_on_fraction :
    LuaValue.valueEq (.int 1) (.dbl (3 / 2)) =
      .error (.contextlessBadType "integer" "double") ∧
    LuaValue.valueEq (.dbl (3 / 2)) (.int 1) = .ok false ∧
    LuaValue.valueEq (.int 2) (.dbl 2) = .ok true := by
  refine ⟨?_, ?_, ?_⟩ <;>
    norm_num [LuaValue.valueEq, LuaValue.as_int_weak, LuaValue.as_double_weak]

/-- C5 counterexample. The claim says `e1 == e2` follows §3 equality
(`Types::Value::operator==`) with no numeric coercion of non-numeric
operands. On the input `nil == nil` the §3 equality is `true`, but the
`operatorComparison` branch of `Interpreter::visitExp` coerces both
operands with `as_double_weak`, so the evaluation raises a type error
instead of producing `true`. -/
theorem eval_comparison_eq_not_value_equality :
    eval_comparison .eq .nil .nil =
      .error (.contextlessBadType "weak double" "nil") ∧
    LuaValue.valueEq .nil .nil = .ok true := by
  constructor
  · simp [eval_comparison, LuaValue.as_double_weak, LuaValue.type_as_string]
  · simp [LuaValue.valueEq]

/-- C5 amended. Evaluating `e1 == e2` (and `~=`) coerces BOTH operands to
double through `as_double_weak` and compares numerically; `~=` is the
negation; `Types::Value::operator==` is never consulted; a non-numeric,
non-string operand (nil, bool, table, function shown — the left operand is
coerced first) raises `ContextlessBadTypeException("weak double", tag)`. -/
theorem eval_comparison_eq_amended :
    ∀ (i j : Int) (p q : Rat),
      eval_comparison .eq (.int i) (.int j) =
        .ok (.bool (decide ((i : Rat) = (j : Rat)))) ∧
      decide ((i : Rat) = (j : Rat)) = decide (i = j) ∧
      eval_comparison .eq (.int i) (.dbl q) =
        .ok (.bool (decide ((i : Rat) = q))) ∧
      eval_comparison .eq (.dbl p) (.int j) =
        .ok (.bool (decide (p = (j : Rat)))) ∧
      eval_comparison .eq (.dbl p) (.dbl q) = .ok (.bool (decide (p = q))) ∧
      eval_comparison .diff (.int i) (.dbl q) =
        .ok (.bool (!decide ((i : Rat) = q))) ∧
      eval_comparison .eq .nil (.int j) =
        .error (.contextlessBadType "weak double" "nil") ∧
      eval_comparison .eq (.bool true) (.int j) =
        .error (.contextlessBadType "weak double" "bool") ∧
      eval_comparison .eq (.table 0) (.int j) =
        .error (.contextlessBadType "weak double" "table") ∧
      eval_comparison .eq (.func 0) (.int j) =
        .error (.contextlessBadType "weak double" "function") ∧
      eval_comparison .eq (.int i) .nil =
        .error (.contextlessBadType "weak double" "nil") := by
  intro i j p q
  refine ⟨?_, ?_, ?_, ?_, ?_, ?_, ?_, ?_, ?_, ?_, ?_⟩ <;>
    simp [eval_comparison, LuaValue.as_double_weak, comparisonFn,
      LuaValue.type_as_string]

/-- C1. Binding of `f(x, ...)` called with `(1, 2, 3)`: the claim (and the
spec scenario) require the variadic binding to collect `(2, 3)`. In
`Interpreter::call_function` the formal list is `["x", "..."]`, the
positional loop consumes argument `2` for the formal literally named
`"..."`, and the elipsis overwrite then stores only the arguments from
index 2 on — the binding ends up `Elipsis(3)`; the call returns `1, 3`
rather than `1, 2, 3`. Evaluation of the model at the failing input. -/
theorem call_function_variadic_binding_drops_argument :
    mapFind (bind_parameters ["x", "..."] [.int 1, .int 2, .int 3]) "x" =
      some (.int 1) ∧
    mapFind (bind_parameters ["x", "..."] [.int 1, .int 2, .int 3]) "..." =
      some (.elipsis [.int 3]) ∧
    some (LuaValue.elipsis [.int 3]) ≠ some (LuaValue.elipsis [.int 2, .int 3]) := by
  refine ⟨rfl, rfl, by simp⟩

/-- C2. `and` / `or` are NOT short-circuit in `Interpreter::visitExp`: the
right operand is visited (hence its side effects occur) before the truth
value of the left operand is inspected. For `nil and 7` the result value
is `nil` as claimed, but the visit trace contains the right operand; same
for `1 or 7`. Evaluation of the instrumented model at the failing input. -/
theorem and_or_visit_both_operands :
    evalS (.andE (.lit .nil) (.lit (.int 7))) =
      (.nil, [.andE (.lit .nil) (.lit (.int 7)), .lit .nil, .lit (.int 7)]) ∧
    evalS (.orE (.lit (.int 1)) (.lit (.int 7))) =
      (.int 1, [.orE (.lit (.int 1)) (.lit (.int 7)), .lit (.int 1),
        .lit (.int 7)]) ∧
    SExp.lit (.int 7) ∈ (evalS (.andE (.lit .nil) (.lit (.int 7)))).2 := by
  refine ⟨rfl, rfl, by simp [evalS, LuaValue.as_bool_weak]⟩

/-- C3 counterexample. The claim requires
`for i = 5, 0, -1` to iterate on 5, 4, 3, 2, 1, 0; the loop condition of
`Interpreter::process_for_loop` is `value <= limit` regardless of the sign
of the step, so with `a = 5, b = 0` the body runs zero times. -/
theorem for_loop_descending_is_empty :
    for_loop_values 5 0 (-1) 20 = [] ∧
    for_loop_values 5 0 (-1) 20 ≠ [5, 4, 3, 2, 1, 0] := by
  refine ⟨rfl, by decide⟩

/-- C3 amended. Numeric `for` with all-integer bounds: `a=1, b=0` runs
zero iterations and `a=0, b=5, s=2` iterates on 0, 2, 4, as claimed; but
`a=5, b=0, s=-1` runs ZERO iterations, because the loop condition is
`i ≤ b` whatever the sign of the step (matching the normative rule of the
spec and contradicting its test bullet). -/
theorem for_loop_scenarios_amended :
    for_loop_values 1 0 1 20 = [] ∧
    for_loop_values 0 5 2 20 = [0, 2, 4] ∧
    for_loop_values 5 0 (-1) 20 = [] := ⟨rfl, rfl, rfl⟩

/-- C4. Resumption after a caught `Goto`: the catch handler of
`Interpreter::visitBlock` only scans FORWARD from the statement that threw.
For the block `[::L::, s, goto L]` (backward jump, thrown at index 2) the
handler yields index 4 — past the end of the 3-statement block, so control
falls out of the block instead of resuming after the label (index 1). For
a forward jump `[goto L, s, ::L::, s2]` it correctly yields index 3, the
statement after the label. Evaluation of the model at the failing input. -/
theorem goto_resume_backward_falls_out :
    goto_resume [.label "L", .plain, .gotoStat "L"] 2 "L" = 4 ∧
    List.length [GStat.label "L", .plain, .gotoStat "L"] <
      goto_resume [.label "L", .plain, .gotoStat "L"] 2 "L" ∧
    goto_resume [.label "L", .plain, .gotoStat "L"] 2 "L" ≠ 1 ∧
    goto_resume [.gotoStat "L", .plain, .label "L", .plain] 0 "L" = 3 := by
  refine ⟨rfl, by simp [goto_resume, goto_scan], by simp [goto_resume, goto_scan], rfl⟩

end Luapp

namespace Luapp
/-- C6 counterexample. For `repeat local x = true until x` the claim says
the condition still sees the body local `x` (value `true`). By the time
`process_repeat` evaluates the condition, `visitBlock` has erased the body
block locals and popped the block, so the lookup falls through to the
globals and reads `nil` — while during the body the very same lookup did
yield `true`. -/
theorem repeat_condition_does_not_see_body_local :
    repeat_condition_read [("x", .bool true)] [] "x" = .nil ∧
    repeat_body_read [("x", .bool true)] "x" = .bool true ∧
    LuaValue.nil ≠ LuaValue.bool true := by
  refine ⟨rfl, rfl, by simp⟩

/-- C6 amended. On every iteration the `until` condition is evaluated
AFTER the body block scope has been torn down: for any body local
(declared with any name and value, the name not bound globally), the
condition-time lookup yields `nil`, although the body-time lookup yields
the declared value. -/
theorem repeat_condition_scope_amended :
    ∀ (x : String) (v : LuaValue),
      repeat_condition_read [(x, v)] [] x = .nil ∧
      repeat_body_read [(x, v)] x = v := by
  intro x v
  constructor
  · simp [repeat_condition_read, lookup_name, repeat_vis, repeat_body_locals,
      run_local_decls, declare_local, erase_block, mapFind, mapSet]
  · simp [repeat_body_read, lookup_name, repeat_vis, repeat_body_locals,
      run_local_decls, declare_local, mapFind, mapSet]

/-- The table produced by executing `t[k] = nil` (identity on error, which
no valid key reaches). -/
def table_assign_nil_result (t : Table) (k : LuaValue) : Table :=
  match table_assign t k .nil with
  | .ok t2 => t2
  | .error _ => t

/-- C7 counterexample. Build `{[1] = 10}` and execute `t[1] = nil`: the
lookup afterwards returns `nil`, as claimed, but the int sub-map STILL
holds an entry for key 1 (now storing `nil`) — the assignment path writes
`nil` through the slot reference and never erases the mapping. -/
theorem table_assign_nil_keeps_mapping :
    table_assign {} (.int 1) (.int 10) =
      .ok { int_fields := [(1, .int 10)] } ∧
    table_assign { int_fields := [(1, .int 10)] } (.int 1) .nil =
      .ok { int_fields := [(1, .nil)] } ∧
    (mapFind (Table.int_fields { int_fields := [(1, .nil)] }) 1).isSome = true ∧
    table_subscript { int_fields := [(1, .nil)] } (.int 1) = .ok .nil := by
  refine ⟨rfl, rfl, rfl, rfl⟩

/-- C7 amended. For every table and every non-nil, non-variadic key,
executing `t[k] = nil` succeeds, a subsequent lookup of `t[k]` returns
`nil`, and — contrary to the claim — the entry REMAINS present in the
corresponding per-key-type sub-map, now storing `nil` (bool keys live in
two always-present slots). -/
theorem table_assign_nil_amended :
    ∀ (t : Table) (i : Int) (d : Rat) (s : String) (b : Bool) (r : Nat),
      table_assign t (.int i) .nil = .ok (table_assign_nil_result t (.int i)) ∧
      table_subscript (table_assign_nil_result t (.int i)) (.int i) = .ok .nil ∧
      (mapFind (table_assign_nil_result t (.int i)).int_fields i).isSome = true ∧
      table_assign t (.dbl d) .nil = .ok (table_assign_nil_result t (.dbl d)) ∧
      table_subscript (table_assign_nil_result t (.dbl d)) (.dbl d) = .ok .nil ∧
      (mapFind (table_assign_nil_result t (.dbl d)).double_fields d).isSome = true ∧
      table_assign t (.str s) .nil = .ok (table_assign_nil_result t (.str s)) ∧
      table_subscript (table_assign_nil_result t (.str s)) (.str s) = .ok .nil ∧
      (mapFind (table_assign_nil_result t (.str s)).string_fields s).isSome = true ∧
      table_assign t (.func r) .nil = .ok (table_assign_nil_result t (.func r)) ∧
      table_subscript (table_assign_nil_result t (.func r)) (.func r) = .ok .nil ∧
      (mapFind (table_assign_nil_result t (.func r)).function_fields r).isSome = true ∧
      table_assign t (.table r) .nil = .ok (table_assign_nil_result t (.table r)) ∧
      table_subscript (table_assign_nil_result t (.table r)) (.table r) = .ok .nil ∧
      (mapFind (table_assign_nil_result t (.table r)).table_fields r).isSome = true ∧
      table_assign t (.userdata r) .nil =
        .ok (table_assign_nil_result t (.userdata r)) ∧
      table_subscript (table_assign_nil_result t (.userdata r)) (.userdata r) =
        .ok .nil ∧
      table_assign t (.bool b) .nil = .ok (table_assign_nil_result t (.bool b)) ∧
      table_subscript (table_assign_nil_result t (.bool b)) (.bool b) = .ok .nil := by
  intro t i d s b r
  cases b <;>
    refine ⟨?_, ?_, ?_, ?_, ?_, ?_, ?_, ?_, ?_, ?_, ?_, ?_, ?_, ?_, ?_, ?_, ?_, ?_, ?_⟩ <;>
    simp only [table_assign_nil_result, table_assign, table_create_on_miss,
      fieldSet, table_subscript] <;>
    split_ifs <;>
    simp [mapFind_mapSet]


/-! ## Lemmas for `border` -/

theorem mem_insertSorted (x y : Int) (l : List Int) :
    y ∈ insertSorted x l ↔ y = x ∨ y ∈ l := by
  induction l with
  | nil => simp [insertSorted]
  | cons z rest ih =>
    simp only [insertSorted]
    split_ifs with h1 h2
    · simp only [List.mem_cons]
    · subst h2
      simp only [List.mem_cons]
      try tauto
    · simp only [List.mem_cons, ih]
      tauto

theorem sorted_insertSorted (x : Int) (l : List Int) (hl : l.Sorted (· < ·)) :
    (insertSorted x l).Sorted (· < ·) := by
  induction l with
  | nil => simp [insertSorted]
  | cons z rest ih =>
    rw [List.sorted_cons] at hl
    obtain ⟨hz, hrest⟩ := hl
    simp only [insertSorted]
    split_ifs with h1 h2
    · rw [List.sorted_cons]
      refine ⟨?_, by rw [List.sorted_cons]; exact ⟨hz, hrest⟩⟩
      intro b hb
      rcases List.mem_cons.mp hb with rfl | hb
      · exact h1
      · exact h1.trans (hz b hb)
    · rw [List.sorted_cons]
      exact ⟨hz, hrest⟩
    · have h3 : z < x := by omega
      rw [List.sorted_cons]
      refine ⟨?_, ih hrest⟩
      intro b hb
      rcases (mem_insertSorted x b rest).mp hb with rfl | hb
      · exact h3
      · exact hz b hb

theorem mem_foldr_insertSorted (l : List Int) (y : Int) :
    y ∈ l.foldr insertSorted [] ↔ y ∈ l := by
  induction l with
  | nil => simp
  | cons z rest ih => simp [mem_insertSorted, ih]

theorem sorted_foldr_insertSorted (l : List Int) :
    (l.foldr insertSorted []).Sorted (· < ·) := by
  induction l with
  | nil => simp
  | cons z rest ih => exact sorted_insertSorted z _ ih

theorem mem_positiveIntKeys (t : Table) (y : Int) :
    y ∈ positiveIntKeys t ↔ y ∈ t.int_fields.map Prod.fst ∧ 0 < y := by
  rw [positiveIntKeys, mem_foldr_insertSorted, List.mem_filter]
  simp

theorem mapFind_isSome_iff {κ ν : Type} [DecidableEq κ]
    (m : List (κ × ν)) (k : κ) :
    (mapFind m k).isSome = true ↔ k ∈ m.map Prod.fst := by
  induction m with
  | nil => simp [mapFind]
  | cons p rest ih =>
    obtain ⟨k0, v0⟩ := p
    by_cases h : k0 = k
    · subst h
      simp [mapFind]
    · simp only [mapFind, if_neg h, List.map_cons, List.mem_cons, ih]
      constructor
      · exact fun hk => Or.inr hk
      · rintro (rfl | hk)
        · exact absurd rfl h
        · exact hk

theorem borderScan_spec :
    ∀ (l : List Int), l.Sorted (· < ·) → l ≠ [] →
      borderScan l ∈ l ∧ borderScan l + 1 ∉ l := by
  intro l
  induction l with
  | nil => exact fun _ h => absurd rfl h
  | cons k tail ih =>
    intro hs _
    rw [List.sorted_cons] at hs
    obtain ⟨hk, htail⟩ := hs
    cases tail with
    | nil =>
      refine ⟨by simp [borderScan], ?_⟩
      simp only [borderScan, List.mem_singleton]
      omega
    | cons k2 rest =>
      by_cases h : k = k2 - 1
      · have hrec := ih htail (by simp)
        simp only [borderScan, if_pos h]
        refine ⟨List.mem_cons_of_mem k hrec.1, ?_⟩
        intro hmem
        rcases List.mem_cons.mp hmem with heq | hmem2
        · have hb : k2 ≤ borderScan (k2 :: rest) := by
            rcases List.mem_cons.mp hrec.1 with hb2 | hm
            · omega
            · rw [List.sorted_cons] at htail
              exact le_of_lt (htail.1 _ hm)
          have hkk : k < k2 := hk k2 (by simp)
          omega
        · exact hrec.2 hmem2
      · simp only [borderScan, if_neg h]
        refine ⟨List.mem_cons_self k _, ?_⟩
        intro hmem
        have hkk2 : k < k2 := hk k2 (by simp)
        rcases List.mem_cons.mp hmem with heq | hmem2
        · omega
        · rcases List.mem_cons.mp hmem2 with heq2 | hmem3
          · omega
          · rw [List.sorted_cons] at htail
            have := htail.1 _ hmem3
            omega

/-- C8 counterexample. The table whose int sub-map holds the single entry
`1 ↦ nil` — exactly what `{[1] = 10}` followed by `t[1] = nil` produces
(see the C7 theorems). `border` returns 1, yet the lookup of `t[1]` is
`nil`: the result is neither a positive `n` with `t[n]` non-nil and
`t[n+1]` nil, nor 0 — `border` counts keys PRESENT in the sub-map,
regardless of the stored value. -/
theorem border_nil_entry_counterexample :
    border { int_fields := [(1, .nil)] } = 1 ∧
    table_subscript { int_fields := [(1, .nil)] } (.int 1) = .ok .nil ∧
    ¬ borderSpec { int_fields := [(1, .nil)] } := by
  refine ⟨rfl, rfl, ?_⟩
  intro hspec
  rcases hspec with ⟨_, hne, _⟩ | ⟨h0, _⟩
  · exact hne rfl
  · exact absurd h0 (by decide)

/-- C8 amended. For every table, `border` returns 0 when the int sub-map
holds no positive key, and otherwise a positive integer `n` such that the
sub-map holds an ENTRY for `n` (whose stored value may be `nil`, since
assigning `nil` does not remove entries) and no entry for `n + 1`. -/
theorem border_amended :
    ∀ t : Table,
      (positiveIntKeys t = [] ∧ border t = 0) ∨
      (0 < border t ∧ (mapFind t.int_fields (border t)).isSome = true ∧
        mapFind t.int_fields (border t + 1) = none) := by
  intro t
  by_cases h : positiveIntKeys t = []
  · exact Or.inl ⟨h, by simp [border, h, borderScan]⟩
  · right
    have hs : (positiveIntKeys t).Sorted (· < ·) := by
      rw [positiveIntKeys]
      exact sorted_foldr_insertSorted _
    obtain ⟨hmem, hnot⟩ := borderScan_spec _ hs h
    rw [show borderScan (positiveIntKeys t) = border t from rfl] at hmem hnot
    rw [mem_positiveIntKeys] at hmem
    obtain ⟨hin, hpos⟩ := hmem
    refine ⟨hpos, (mapFind_isSome_iff _ _).mpr hin, ?_⟩
    have h2 : border t + 1 ∉ t.int_fields.map Prod.fst := by
      intro hc
      exact hnot ((mem_positiveIntKeys t _).mpr ⟨hc, by omega⟩)
    cases hfind : mapFind t.int_fields (border t + 1) with
    | none => rfl
    | some v =>
      exact absurd ((mapFind_isSome_iff _ _).mp (by rw [hfind]; rfl)) h2


/-! ## Lemmas for break legality -/

mutual

theorem checkStat_eq_lonely (d : Nat) (s : BStat) :
    checkStat d s = !lonelyStat (decide (0 < d)) s := by
  cases s with
  | breakStat => simp [checkStat, lonelyStat]
  | whileStat b =>
    have h := checkBlock_eq_lonely (d + 1) b
    simpa [checkStat, lonelyStat, Nat.succ_pos] using h
  | repeatStat b =>
    have h := checkBlock_eq_lonely (d + 1) b
    simpa [checkStat, lonelyStat, Nat.succ_pos] using h
  | forNumStat b =>
    have h := checkBlock_eq_lonely (d + 1) b
    simpa [checkStat, lonelyStat, Nat.succ_pos] using h
  | forInStat b =>
    have h := checkBlock_eq_lonely (d + 1) b
    simpa [checkStat, lonelyStat, Nat.succ_pos] using h
  | doStat b =>
    have h := checkBlock_eq_lonely d b
    simpa [checkStat, lonelyStat] using h
  | funcStat b =>
    have h := checkBlock_eq_lonely d b
    simpa [checkStat, lonelyStat] using h
  | otherStat => simp [checkStat, lonelyStat]

theorem checkBlock_eq_lonely (d : Nat) (b : BBlock) :
    checkBlock d b = !lonelyBlock (decide (0 < d)) b := by
  cases b with
  | nil => simp [checkBlock, lonelyBlock]
  | cons s rest =>
    have h1 := checkStat_eq_lonely d s
    have h2 := checkBlock_eq_lonely d rest
    simp [checkBlock, lonelyBlock, h1, h2, Bool.not_or]

end

/-- C9 counterexample. The program
`while e do local f = function() break end end` contains a `break` that is
not within the body block of any loop of its own function — the claim
requires the analyzer to raise `LonelyBreak` (`claimLonelyBlock` renders
the claimed rule) — yet the walk accepts it: `enterFuncbody` never resets
`_loop_blocks`, so the `break` inside the nested function body still sees
the open loop body block. -/
theorem break_in_nested_function_accepted :
    checkBlock 0 demoBreakProgram = true ∧
    claimLonelyBlock false demoBreakProgram = true := by
  constructor
  · simp [demoBreakProgram, checkBlock, checkStat]
  · simp [demoBreakProgram, claimLonelyBlock, claimLonelyStat]

/-- C9 amended. The analyzer raises `LonelyBreak` if and only if the
program contains a `break` with no loop-statement extent open around it in
the tree walk — where `do` blocks AND function bodies inherit the
enclosing extent. In particular a `break` directly inside a loop body is
accepted, a top-level `break` is rejected, and a `break` inside a function
body nested in a loop body is (contrary to the claim) accepted. -/
theorem break_legality_amended :
    ∀ b : BBlock, checkBlock 0 b = false ↔ lonelyBlock false b = true := by
  intro b
  have h := checkBlock_eq_lonely 0 b
  simp only [decide_eq_true_eq, show decide ((0:Nat) < 0) = false from rfl] at h
  rw [h]
  cases lonelyBlock false b <;> simp

end Luapp
